import Mathlib

/-! # Verification of the AGCN sharded disk-dataset store and transforms

Shallow embedding of `AGCN/utils/datatset/diskdataset.py` and
`AGCN/utils/transformer/transformers.py`.  Rows, shards and array entries
are modelled as Lean lists; machine floats are modelled as exact rationals
(`ℚ`) where only field operations occur and as reals (`ℝ`) where `log`,
`exp` or real powers occur. -/

namespace AGCN

/-! ## Batching (`DiskDataset.iterbatches`, diskdataset.py lines 233-289) -/

/-- Entry `j` of `np.linspace(0, n, k + 1, dtype=int)` (line 263): the value
`j * n / k` truncated to an integer, here in exact arithmetic. -/
def intervalPoint (n k j : ℕ) : ℕ :=
  j * n / k

/-- `int(np.ceil(float(n) / b))` for the number of batches of one shard
(line 266). -/
def ceilDiv (n b : ℕ) : ℕ :=
  (n + b - 1) / b

/-- The batches `DiskDataset.iterbatches` cuts from one shard: contiguous
slices of the (already sample-permuted) shard rows between consecutive
`linspace` interval points (lines 263-271).  A zero-row shard yields no
batches, matching the `n_samples == 0: continue` guard (line 253). -/
def shardBatches {α : Type} (b : ℕ) (rows : List α) : List (List α) :=
  (List.range (ceilDiv rows.length b)).map fun j =>
    (rows.drop (intervalPoint rows.length (ceilDiv rows.length b) j)).take
      (intervalPoint rows.length (ceilDiv rows.length b) (j + 1) -
        intervalPoint rows.length (ceilDiv rows.length b) j)

/-- `iterbatches` with `pad_batches=False`: every shard (in shard-permuted
order, each shard's rows already sample-permuted) contributes its slice
batches in order. -/
def iterbatchesNoPad {α : Type} (b : ℕ) (shards : List (List α)) : List (List α) :=
  (shards.map (shardBatches b)).flatten

/-- Modelled from the spec: `Dataset.pad_batch` lives in the `Dataset` base
class, which is not among the repository sources; per the spec it pads a
batch "by wrap-around repetition of existing rows" "up to exactly
`batch_size` rows". -/
def pad_batch {α : Type} [Inhabited α] (b : ℕ) (rows : List α) : List α :=
  (List.range b).map fun i => rows.getD (i % rows.length) default

/-- `iterbatches` with `deterministic=True, pad_batches=True`: identity
permutations, each slice padded to the batch size (lines 284-287). -/
def iterbatchesPadDet {α : Type} [Inhabited α] (b : ℕ) (shards : List (List α)) :
    List (List α) :=
  (shards.map fun s => (shardBatches b s).map (pad_batch b)).flatten

/-! Coverage lemmas: the interval points cut one shard into slices whose
concatenation is exactly the shard. -/

theorem flatten_slices {α : Type} (rows : List α) (f : ℕ → ℕ) (k : ℕ)
    (hmono : ∀ j, f j ≤ f (j + 1)) (h0 : f 0 = 0) (hk : f k = rows.length) :
    ((List.range k).map fun j => (rows.drop (f j)).take (f (j + 1) - f j)).flatten
      = rows := by
  have key : ∀ m : ℕ,
      ((List.range m).map fun j => (rows.drop (f j)).take (f (j + 1) - f j)).flatten
        = rows.take (f m) := by
    intro m
    induction m with
    | zero => simp [h0]
    | succ m ih =>
      rw [List.range_succ, List.map_append, List.flatten_append, ih]
      have hsum : f (m + 1) = f m + (f (m + 1) - f m) :=
        (Nat.add_sub_cancel' (hmono m)).symm
      rw [hsum, List.take_add]
      simp
  rw [key k, hk, List.take_length]

theorem intervalPoint_mono (n k : ℕ) : ∀ j, intervalPoint n k j ≤ intervalPoint n k (j + 1) := by
  intro j
  exact Nat.div_le_div_right (Nat.mul_le_mul_right n (Nat.le_succ j))

theorem shardBatches_flatten {α : Type} (b : ℕ) (hb : 1 ≤ b) (rows : List α) :
    (shardBatches b rows).flatten = rows := by
  rcases Nat.eq_zero_or_pos rows.length with hn | hn
  · rw [List.length_eq_zero] at hn
    subst hn
    simp [shardBatches, ceilDiv]
  · have hk : 0 < ceilDiv rows.length b := by
      unfold ceilDiv
      have h1 : b ≤ rows.length + b - 1 := by omega
      calc 1 = b / b := (Nat.div_self (by omega)).symm
        _ ≤ (rows.length + b - 1) / b := Nat.div_le_div_right h1
    refine flatten_slices rows _ _ (intervalPoint_mono rows.length _) ?_ ?_
    · simp [intervalPoint]
    · unfold intervalPoint
      exact Nat.mul_div_cancel_left rows.length hk

theorem iterbatchesNoPad_flatten {α : Type} (b : ℕ) (hb : 1 ≤ b)
    (shards : List (List α)) :
    (iterbatchesNoPad b shards).flatten = shards.flatten := by
  unfold iterbatchesNoPad
  induction shards with
  | nil => simp
  | cons s rest ih =>
    simp only [List.map_cons, List.flatten_cons, List.flatten_append, ih]
    rw [shardBatches_flatten b hb s]

theorem forall₂_perm_flatten {α : Type} :
    ∀ {l₁ l₂ : List (List α)}, List.Forall₂ List.Perm l₁ l₂ →
      l₁.flatten.Perm l₂.flatten := by
  intro l₁ l₂ h
  induction h with
  | nil => simp
  | cons h _ ih => exact List.Perm.append h ih

/-- C1: for every dataset and every `batch_size b ≥ 1`, one full pass of
`iterbatches(batch_size=b, pad_batches=False)` yields batches whose
concatenated rows are a permutation of the dataset's rows (every sample
exactly once: equal total count, no duplicates, no omissions), for any
shard-order permutation and any intra-shard sample permutations —
covering both the deterministic and the non-deterministic mode. -/
theorem iterbatches_nopad_exactly_once {α : Type} (b : ℕ) (hb : 1 ≤ b)
    (shards mid permShards : List (List α))
    (hmid : mid.Perm shards) (hrows : List.Forall₂ List.Perm permShards mid) :
    ((iterbatchesNoPad b permShards).flatten).Perm shards.flatten ∧
      (iterbatchesNoPad b permShards).flatten.length = shards.flatten.length := by
  have h1 : (iterbatchesNoPad b permShards).flatten = permShards.flatten :=
    iterbatchesNoPad_flatten b hb permShards
  have h2 : permShards.flatten.Perm mid.flatten := forall₂_perm_flatten hrows
  have h3 : mid.flatten.Perm shards.flatten := hmid.flatten
  have hperm : ((iterbatchesNoPad b permShards).flatten).Perm shards.flatten := by
    rw [h1]; exact h2.trans h3
  exact ⟨hperm, hperm.length_eq⟩

/-- Witness for C1 at a concrete input. -/
theorem iterbatches_nopad_exactly_once_witness :
    ((iterbatchesNoPad 2 [[1, 2, 3], [4]]).flatten).Perm
        ([[1, 2, 3], [4]] : List (List ℕ)).flatten ∧
      (iterbatchesNoPad 2 [[1, 2, 3], [4]]).flatten.length
        = ([[1, 2, 3], [4]] : List (List ℕ)).flatten.length :=
  iterbatches_nopad_exactly_once 2 (by decide) [[1, 2, 3], [4]] [[1, 2, 3], [4]]
    [[1, 2, 3], [4]] (List.Perm.refl _)
    (List.forall₂_same.mpr fun x _ => List.Perm.refl x)

/-- C4 counterexample: on one shard of 5 rows with `batch_size=3`,
deterministic and padded, the claim says the first batch is 3 distinct
original rows and the second is padded (hence contains a repeat).  The
code's `linspace(0, 5, 3, dtype=int) = [0, 2, 5]` makes the FIRST batch
the short, padded one, so the claim fails on this input. -/
theorem iterbatches_pad_first_batch_cex :
    ¬ (((iterbatchesPadDet 3 [[0, 1, 2, 3, 4]]).getD 0 []).Nodup ∧
        ¬ ((iterbatchesPadDet 3 [[0, 1, 2, 3, 4]]).getD 1 []).Nodup) := by
  decide

/-- C4 (amended): a dataset with 1 shard of 5 rows, `batch_size=3`,
deterministic, `pad_batches=True` yields exactly two batches: the first is
the first 2 original rows padded with 1 wrap-around repeat (total 3), the
second is the remaining 3 original rows. -/
theorem iterbatches_pad_5rows_batches :
    iterbatchesPadDet 3 [[0, 1, 2, 3, 4]] = [[0, 1, 0], [2, 3, 4]] := by
  decide

/-! ## Resharding (`DiskDataset.reshard`, diskdataset.py lines 135-167)

The resharding generator accumulates incoming shards into a buffer and
emits `shard_size`-row slices while the buffer strictly exceeds
`shard_size` (`while len(X_next) > shard_size`, line 153), finally
yielding the spillover buffer (line 160).  The inner while-loop is
modelled with fuel `buf.length`, which is enough iterations whenever
`shard_size ≥ 1` (for `shard_size = 0` the source loops forever; the
fuel runs out instead, which is why the theorems assume `1 ≤ k`). -/

def emitFullFuel {α : Type} : ℕ → ℕ → List α → List (List α) × List α
  | 0, _, buf => ([], buf)
  | fuel + 1, s, buf =>
    if s < buf.length then
      let p := emitFullFuel fuel s (buf.drop s)
      (buf.take s :: p.1, p.2)
    else ([], buf)

/-- The inner while-loop of the `reshard` generator on one buffer. -/
def emitFull {α : Type} (s : ℕ) (buf : List α) : List (List α) × List α :=
  emitFullFuel buf.length s buf

/-- The `reshard` generator: walk the existing shards, buffering and
emitting; at the end yield the spillover (possibly empty) buffer. -/
def reshardAux {α : Type} (s : ℕ) : List (List α) → List α → List (List α)
  | [], buf => [buf]
  | shard :: rest, buf =>
    let p := emitFull s (buf ++ shard)
    p.1 ++ reshardAux s rest p.2

/-- `DiskDataset.reshard(shard_size)` as the new list of shards. -/
def reshard {α : Type} (s : ℕ) (shards : List (List α)) : List (List α) :=
  reshardAux s shards []

theorem emitFullFuel_flatten {α : Type} (s : ℕ) :
    ∀ (fuel : ℕ) (buf : List α),
      (emitFullFuel fuel s buf).1.flatten ++ (emitFullFuel fuel s buf).2 = buf := by
  intro fuel
  induction fuel with
  | zero => intro buf; simp [emitFullFuel]
  | succ fuel ih =>
    intro buf
    rw [emitFullFuel]
    split
    · simp only [List.flatten_cons, List.append_assoc, ih (buf.drop s)]
      exact List.take_append_drop s buf
    · simp

theorem emitFull_flatten {α : Type} (s : ℕ) (buf : List α) :
    (emitFull s buf).1.flatten ++ (emitFull s buf).2 = buf :=
  emitFullFuel_flatten s buf.length buf

theorem reshardAux_flatten {α : Type} (s : ℕ) (shards : List (List α)) :
    ∀ buf : List α, (reshardAux s shards buf).flatten = buf ++ shards.flatten := by
  induction shards with
  | nil => intro buf; simp [reshardAux]
  | cons shard rest ih =>
    intro buf
    simp only [reshardAux, List.flatten_append, ih, List.flatten_cons]
    rw [← List.append_assoc, emitFull_flatten s (buf ++ shard), List.append_assoc]

/-- C2: `reshard(shard_size)` keeps the dataset's total row count and the
relative row order (concatenating shards in index order) unchanged; only
shard boundaries move.  Consequently resharding to `k` and then back to
any original shard size `m` yields the same rows in the same order. -/
theorem reshard_preserves_rows {α : Type} (k m : ℕ) (hk : 1 ≤ k) (hm : 1 ≤ m)
    (shards : List (List α)) :
    (reshard k shards).flatten = shards.flatten ∧
      (reshard m (reshard k shards)).flatten = shards.flatten ∧
      (reshard k shards).flatten.length = shards.flatten.length := by
  have h1 : (reshard k shards).flatten = shards.flatten := by
    unfold reshard; rw [reshardAux_flatten]; simp
  have h2 : (reshard m (reshard k shards)).flatten = (reshard k shards).flatten := by
    unfold reshard; rw [reshardAux_flatten]; simp
  exact ⟨h1, h2.trans h1, by rw [h1]⟩

/-- Witness for C2 at a concrete input. -/
theorem reshard_preserves_rows_witness :
    (reshard 2 [[1, 2, 3], [4, 5]]).flatten = ([[1, 2, 3], [4, 5]] : List (List ℕ)).flatten ∧
      (reshard 3 (reshard 2 [[1, 2, 3], [4, 5]])).flatten
        = ([[1, 2, 3], [4, 5]] : List (List ℕ)).flatten ∧
      (reshard 2 [[1, 2, 3], [4, 5]]).flatten.length
        = ([[1, 2, 3], [4, 5]] : List (List ℕ)).flatten.length :=
  reshard_preserves_rows 2 3 (by decide) (by decide) [[1, 2, 3], [4, 5]]

/-! ## Reading a shard's weights (`DiskDataset.get_shard` lines 489-497 and
`DiskDataset.itershards` lines 221-228, identical logic)

A metadata row stores an optional weights file reference `row['w']`.  The
source distinguishes (a) a null reference — `w = None` — from (b) a
present reference whose file is missing on disk — `w = np.ones(y.shape)`.
If in case (b) the labels `y` are also `None`, `np.ones(y.shape)` raises
(modelled as `Except.error`). -/

/-- A 2-D array of exact rationals. -/
abbrev NDArray : Type := List (List ℚ)

/-- `np.ones(y.shape)` for a 2-D `y`. -/
def onesLike (y : NDArray) : NDArray :=
  y.map fun r => r.map fun _ => (1 : ℚ)

/-- The weights branch of `get_shard` / `itershards`.  `fs` is the data
directory (file name to stored array), `wRef` is `row['w']`, and `y` is the
already-loaded labels array (`None` when `row['y']` is null). -/
def loadW (fs : String → Option NDArray) (wRef : Option String)
    (y : Option NDArray) : Except Unit (Option NDArray) :=
  match wRef with
  | none => Except.ok none
  | some r =>
    match fs r with
    | some w => Except.ok (some w)
    | none =>
      match y with
      | some yv => Except.ok (some (onesLike yv))
      | none => Except.error ()

/-- C3 counterexample: a shard whose metadata weights reference is null
while a labels reference is present (labels `[[0, 1]]` loaded) yields
absent weights (`None`), not the all-ones array of label shape the claim
requires. -/
theorem loadw_null_wref_not_ones :
    loadW (fun s => if s = "shard-0-y.joblib" then some [[0, 1]] else none)
        none (some [[0, 1]]) = Except.ok none ∧
      (Except.ok none : Except Unit (Option NDArray))
        ≠ Except.ok (some (onesLike [[0, 1]])) := by
  constructor
  · rfl
  · intro h
    simp only [Except.ok.injEq] at h
    exact Option.noConfusion h

/-- C3 (amended): the all-ones recovery applies when the weights reference
is PRESENT but its file is missing from disk while labels are present:
reading then returns an all-ones array of exactly the labels' shape.  A
null weights reference instead yields absent weights.  (Same branch in
`get_shard` and `itershards`.) -/
theorem loadw_missing_file_ones (fs : String → Option NDArray) (r : String)
    (y : NDArray) (hmiss : fs r = none) :
    loadW fs (some r) (some y) = Except.ok (some (onesLike y)) ∧
      (onesLike y).length = y.length ∧
      (∀ i, ((onesLike y).getD i []).length = (y.getD i []).length) ∧
      (∀ row ∈ onesLike y, ∀ x ∈ row, x = 1) ∧
      (∀ y' : Option NDArray, loadW fs none y' = Except.ok none) := by
  refine ⟨?_, ?_, ?_, ?_, fun _ => rfl⟩
  · simp [loadW, hmiss]
  · simp [onesLike]
  · intro i
    unfold onesLike
    rcases Nat.lt_or_ge i y.length with hi | hi
    · rw [List.getD_eq_getElem _ _ (by simpa using hi), List.getD_eq_getElem _ _ hi]
      simp
    · rw [List.getD_eq_default _ _ (by simpa using hi), List.getD_eq_default _ _ hi]
  · intro row hrow x hx
    unfold onesLike at hrow
    rcases List.mem_map.mp hrow with ⟨r0, _, hr0⟩
    subst hr0
    rcases List.mem_map.mp hx with ⟨x0, _, hx0⟩
    exact hx0.symm

/-- Witness for the amended C3 at a concrete input. -/
theorem loadw_missing_file_ones_witness :
    loadW (fun s => if s = "shard-0-y.joblib" then some [[0, 1]] else none)
        (some "shard-0-w.joblib") (some [[0, 1]])
        = Except.ok (some (onesLike [[0, 1]])) ∧
      (onesLike [[0, 1]]).length = ([[0, 1]] : NDArray).length ∧
      (∀ i, ((onesLike [[0, 1]]).getD i []).length
        = (([[0, 1]] : NDArray).getD i []).length) ∧
      (∀ row ∈ onesLike [[0, 1]], ∀ x ∈ row, x = 1) ∧
      (∀ y' : Option NDArray,
        loadW (fun s => if s = "shard-0-y.joblib" then some [[0, 1]] else none)
          none y' = Except.ok none) :=
  loadw_missing_file_ones _ "shard-0-w.joblib" [[0, 1]] (by simp)

/-! ## Transformer constructors (transformers.py)

`Transformer.__init__` (lines 59-72) asserts that at least one and exactly
one of the three target flags is set.  `NormalizationTransformer`,
`ClippingTransformer`, `LogTransformer` and `BalancingTransformer` invoke
it via `super().__init__` (some adding further asserts of their own).
`CDFTransformer.__init__` (lines 374-380) and `PowerTransformer.__init__`
(lines 429-432) set their fields directly and never call the base
constructor, so no assertion can fire there.  A failed `assert` is
modelled as `Except.error`. -/

/-- `Transformer.__init__(transform_X, transform_y, transform_w)`. -/
def transformerInit (tX tY tW : Bool) : Except String (Bool × Bool × Bool) :=
  if ¬(tX || tY || tW) then Except.error "assert transform_X or transform_y or transform_w"
  else if tX.toNat + tY.toNat + tW.toNat ≠ 1 then Except.error "assert sum == 1"
  else Except.ok (tX, tY, tW)

/-- `NormalizationTransformer.__init__` forwards its flags to the base
constructor (lines 112-116). -/
def normalizationInit (tX tY tW : Bool) : Except String (Bool × Bool × Bool) :=
  transformerInit tX tY tW

/-- `ClippingTransformer.__init__`: base constructor plus
`assert not transform_w` (lines 208-213). -/
def clippingInit (tX tY tW : Bool) : Except String (Bool × Bool × Bool) :=
  (transformerInit tX tY tW).bind fun f =>
    if tW then Except.error "assert not transform_w" else Except.ok f

/-- `LogTransformer.__init__`: base constructor with `transform_w`
defaulted to `False` (lines 262-263). -/
def logInit (tX tY : Bool) : Except String (Bool × Bool × Bool) :=
  transformerInit tX tY false

/-- `BalancingTransformer.__init__`: base constructor plus
`assert not transform_X`, `assert not transform_y`, `assert transform_w`
(lines 326-334). -/
def balancingInit (tX tY tW : Bool) : Except String (Bool × Bool × Bool) :=
  (transformerInit tX tY tW).bind fun f =>
    if tX then Except.error "assert not transform_X"
    else if tY then Except.error "assert not transform_y"
    else if ¬tW then Except.error "assert transform_w"
    else Except.ok f

/-- `CDFTransformer.__init__(transform_X, transform_y, dataset, bins)`:
assigns fields directly, performs no assertion (lines 374-380). -/
def cdfInit (tX tY : Bool) (bins : ℕ) : Except String (Bool × Bool × ℕ) :=
  Except.ok (tX, tY, bins)

/-- `PowerTransformer.__init__(transform_X, transform_y, powers)`:
assigns fields directly, performs no assertion (lines 429-432). -/
def powerInit (tX tY : Bool) (powers : List ℚ) : Except String (Bool × Bool × List ℚ) :=
  Except.ok (tX, tY, powers)

/-- C5 counterexample: constructing `CDFTransformer` (and likewise
`PowerTransformer`) with BOTH features and labels targeted — or with
NEITHER — succeeds, because these variants never run the base
constructor's assertions; so "fails at construction time for every
Transformer variant" is false. -/
theorem cdf_power_init_no_assert_cex :
    cdfInit true true 2 = Except.ok (true, true, 2) ∧
      cdfInit false false 2 = Except.ok (false, false, 2) ∧
      powerInit true true [1] = Except.ok (true, true, [1]) :=
  ⟨rfl, rfl, rfl⟩

/-- C5 (amended): the variants that invoke the base `Transformer`
constructor (Normalization, Clipping, Log, Balancing) fail at construction
whenever the number of targeted arrays among
`{transform_X, transform_y, transform_w}` differs from one, while
`CDFTransformer` and `PowerTransformer` skip the base constructor and
construct successfully for every flag combination. -/
theorem transformer_init_exactly_one :
    (∀ tX tY tW : Bool,
      (transformerInit tX tY tW).isOk = true ↔ tX.toNat + tY.toNat + tW.toNat = 1) ∧
    (∀ tX tY tW : Bool, normalizationInit tX tY tW = transformerInit tX tY tW) ∧
    (∀ tX tY tW : Bool,
      (clippingInit tX tY tW).isOk = true → tX.toNat + tY.toNat + tW.toNat = 1) ∧
    (∀ tX tY : Bool, (logInit tX tY).isOk = true → tX.toNat + tY.toNat = 1) ∧
    (∀ tX tY tW : Bool,
      (balancingInit tX tY tW).isOk = true → tX.toNat + tY.toNat + tW.toNat = 1) ∧
    (∀ tX tY : Bool, ∀ bins : ℕ, cdfInit tX tY bins = Except.ok (tX, tY, bins)) ∧
    (∀ tX tY : Bool, ∀ ps : List ℚ, powerInit tX tY ps = Except.ok (tX, tY, ps)) := by
  refine ⟨by decide, fun _ _ _ => rfl, by decide, by decide, by decide,
    fun _ _ _ => rfl, fun _ _ _ => rfl⟩

/-! ## BalancingTransformer (transformers.py lines 317-367) -/

/-- Column `j` of a 2-D array, one entry per row (missing entries default
to 0, only relevant out of range). -/
def taskColumn (m : NDArray) (j : ℕ) : List ℚ :=
  m.map fun r => r.getD j 0

/-- Entry `(i, j)` of a 2-D array. -/
def colD (m : NDArray) (i j : ℕ) : ℚ :=
  (m.getD i []).getD j 0

/-- `BalancingTransformer.__init__` weight computation (lines 341-355):
per task, drop samples whose weight is zero, count nonzero labels as
positives, and set `(neg_weight, pos_weight) = (1, num_neg / num_pos)`
(else `(1, 1)` when no positives). -/
def balancingWeights (nTasks : ℕ) (y w : NDArray) : List (ℚ × ℚ) :=
  (List.range nTasks).map fun ind =>
    let ys := (((taskColumn y ind).zip (taskColumn w ind)).filter
      fun p => decide (p.2 ≠ 0)).map Prod.fst
    let numPos := (ys.filter fun v => decide (v ≠ 0)).length
    let numNeg := ys.length - numPos
    (1, if 0 < numPos then (numNeg : ℚ) / numPos else 1)

/-- `BalancingTransformer.transform_array` (lines 357-367): start from
`np.zeros_like(w)`; for each task `ind < nTasks`, samples with
`y = 0 ∧ w ≠ 0` get the stored negative-class weight and samples with
`y = 1 ∧ w ≠ 0` get the stored positive-class weight; everything else
(including every sample whose original weight is zero) stays 0. -/
def balancingTransformW (weights : List (ℚ × ℚ)) (nTasks : ℕ) (y w : NDArray) :
    NDArray :=
  (List.range w.length).map fun i =>
    (List.range ((w.getD i []).length)).map fun ind =>
      if ind < nTasks ∧ colD y i ind = 0 ∧ colD w i ind ≠ 0 then
        (weights.getD ind (0, 0)).1
      else if ind < nTasks ∧ colD y i ind = 1 ∧ colD w i ind ≠ 0 then
        (weights.getD ind (0, 0)).2
      else 0

theorem getD_map_range {β : Type} (n : ℕ) (f : ℕ → β) (d : β) (i : ℕ) :
    ((List.range n).map f).getD i d = if i < n then f i else d := by
  rcases Nat.lt_or_ge i n with h | h
  · rw [List.getD_eq_getElem _ _ (by simpa using h), if_pos h]
    simp
  · rw [List.getD_eq_default _ _ (by simpa using h), if_neg (by omega)]

theorem balancing_zero_weight_stays_zero (ws : List (ℚ × ℚ)) (nT : ℕ)
    (y w : NDArray) (i ind : ℕ) (hw : colD w i ind = 0) :
    colD (balancingTransformW ws nT y w) i ind = 0 := by
  unfold colD balancingTransformW
  rw [getD_map_range]
  by_cases hi : i < w.length
  · rw [if_pos hi, getD_map_range]
    by_cases hj : ind < (w.getD i []).length
    · rw [if_pos hj]
      simp only [colD] at hw ⊢
      simp only [List.getD_eq_getElem?_getD] at hw ⊢
      simp [hw]
    · rw [if_neg hj]
  · rw [if_neg hi]
    simp

/-- C6: on a strictly binary single-task dataset of 80 negatives followed
by 20 positives, all with weight 1, the computed class weights are
`(neg, pos) = (1, 4)`; applying the transform assigns weight 1 to every
negative and 4 to every positive; and in general any sample whose original
weight is zero keeps weight zero after the transform. -/
theorem balancing_weights_spec :
    balancingWeights 1 (List.replicate 80 [0] ++ List.replicate 20 [1])
        (List.replicate 100 [1]) = [(1, 4)] ∧
      balancingTransformW
          (balancingWeights 1 (List.replicate 80 [0] ++ List.replicate 20 [1])
            (List.replicate 100 [1]))
          1 (List.replicate 80 [0] ++ List.replicate 20 [1])
          (List.replicate 100 [1])
        = List.replicate 80 [1] ++ List.replicate 20 [4] ∧
      ∀ (ws : List (ℚ × ℚ)) (nT : ℕ) (y w : NDArray) (i ind : ℕ),
        colD w i ind = 0 → colD (balancingTransformW ws nT y w) i ind = 0 := by
  have hdiv : ((80 : ℕ) : ℚ) / ((20 : ℕ) : ℚ) = 4 := by norm_num
  have hw0 : balancingWeights 1 (List.replicate 80 [0] ++ List.replicate 20 [1])
      (List.replicate 100 [1]) = [(1, ((80 : ℕ) : ℚ) / ((20 : ℕ) : ℚ))] := rfl
  have hw : balancingWeights 1 (List.replicate 80 [0] ++ List.replicate 20 [1])
      (List.replicate 100 [1]) = [(1, 4)] := by rw [hw0, hdiv]
  refine ⟨hw, ?_, balancing_zero_weight_stays_zero⟩
  rw [hw]
  decide

/-- Witness for C6's general zero-weight clause at a concrete input. -/
theorem balancing_weights_spec_witness :
    colD [[0]] 0 0 = 0 ∧
      colD (balancingTransformW [(1, 4)] 1 [[1]] [[0]]) 0 0 = 0 :=
  ⟨by decide, balancing_weights_spec.2.2 [(1, 4)] 1 [[1]] [[0]] 0 0 (by decide)⟩

/-! ## NormalizationTransformer and LogTransformer round trips
(transformers.py lines 104-153 and 252-314)

Float arrays are idealized as `List (List ℝ)`.  `np.nan_to_num` on
`(x - mean) / std` only matters when `std = 0`; in the real-number model
`x / 0 = 0`, matching `nan_to_num(0 / 0) = 0`, and the round-trip theorems
anyway keep the standard deviations nonzero (for labels the constructor
itself forces this via `y_stds[y_stds == 0] = 1.`, line 126). -/

/-- `(row - means) / stds`, entrywise over matched columns
(`transform_array`, lines 141/143). -/
noncomputable def normTransformRow (means stds row : List ℝ) : List ℝ :=
  (row.zip (means.zip stds)).map fun p => (p.1 - p.2.1) / p.2.2

/-- `z * stds + means`, entrywise (`untransform`, lines 151/153). -/
noncomputable def normUntransformRow (means stds row : List ℝ) : List ℝ :=
  (row.zip (means.zip stds)).map fun p => p.1 * p.2.2 + p.2.1

noncomputable def normTransform (means stds : List ℝ) (m : List (List ℝ)) :
    List (List ℝ) :=
  m.map (normTransformRow means stds)

noncomputable def normUntransform (means stds : List ℝ) (m : List (List ℝ)) :
    List (List ℝ) :=
  m.map (normUntransformRow means stds)

/-- `y_stds[y_stds == 0] = 1.` (line 126). -/
noncomputable def stdGuard (stds : List ℝ) : List ℝ :=
  stds.map fun s => if s = 0 then 1 else s

/-- `LogTransformer.transform_array` with no column selection:
`np.log(X + 1)` on every entry (line 270). -/
noncomputable def logTransformAll (m : List (List ℝ)) : List (List ℝ) :=
  m.map fun r => r.map fun x => Real.log (x + 1)

/-- `LogTransformer.untransform` with no column selection:
`np.exp(z) - 1` on every entry (line 296). -/
noncomputable def logUntransformAll (m : List (List ℝ)) : List (List ℝ) :=
  m.map fun r => r.map fun x => Real.exp x - 1

theorem normRow_roundtrip :
    ∀ (row ms ss : List ℝ), row.length = ms.length → ms.length = ss.length →
      (∀ s ∈ ss, s ≠ 0) →
      normUntransformRow ms ss (normTransformRow ms ss row) = row := by
  intro row
  induction row with
  | nil =>
    intro ms ss _ _ _
    simp [normTransformRow, normUntransformRow]
  | cons x xs ih =>
    intro ms ss hlen hlen2 hnz
    cases ms with
    | nil => simp at hlen
    | cons m ms' =>
      cases ss with
      | nil => simp at hlen2
      | cons s ss' =>
        have hs : s ≠ 0 := hnz s (List.mem_cons_self s ss')
        have hrest := ih ms' ss' (by simpa using hlen) (by simpa using hlen2)
          (fun t ht => hnz t (List.mem_cons_of_mem _ ht))
        simp only [normTransformRow, normUntransformRow, List.zip_cons_cons,
          List.map_cons] at hrest ⊢
        rw [hrest, div_mul_cancel₀ _ hs, sub_add_cancel]

theorem stdGuard_ne_zero (stds : List ℝ) : ∀ s ∈ stdGuard stds, s ≠ 0 := by
  intro s hs
  rcases List.mem_map.mp hs with ⟨t, _, ht⟩
  subst ht
  by_cases h : t = 0
  · simp [h]
  · simp [h]

/-- C7: applying `untransform` after `transform_array` reproduces the
original values exactly in the real-number model (hence within
floating-point tolerance in the source): (1) normalization with any
nonzero per-column standard deviations (the feature case), (2)
normalization through the constructor's zero-std guard (the label case,
no side condition needed), (3) the log transform on any matrix with all
entries above `-1`, and (4) in particular the log transform on
`X = [[0, 3]]` with no column selection. -/
theorem norm_log_roundtrip :
    (∀ (means stds : List ℝ) (m : List (List ℝ)),
      (∀ s ∈ stds, s ≠ 0) → (∀ r ∈ m, r.length = means.length) →
      means.length = stds.length →
      normUntransform means stds (normTransform means stds m) = m) ∧
    (∀ (means stds : List ℝ) (m : List (List ℝ)),
      (∀ r ∈ m, r.length = means.length) → means.length = stds.length →
      normUntransform means (stdGuard stds) (normTransform means (stdGuard stds) m)
        = m) ∧
    (∀ m : List (List ℝ), (∀ r ∈ m, ∀ x ∈ r, -1 < x) →
      logUntransformAll (logTransformAll m) = m) ∧
    logUntransformAll (logTransformAll [[0, 3]]) = [[0, 3]] := by
  have hnorm : ∀ (means stds : List ℝ) (m : List (List ℝ)),
      (∀ s ∈ stds, s ≠ 0) → (∀ r ∈ m, r.length = means.length) →
      means.length = stds.length →
      normUntransform means stds (normTransform means stds m) = m := by
    intro means stds m hnz hrow hms
    unfold normTransform normUntransform
    rw [List.map_map]
    conv_rhs => rw [← List.map_id m]
    refine List.map_congr_left fun r hr => ?_
    exact normRow_roundtrip r means stds (hrow r hr) hms (fun s hs => hnz s hs)
  have hlog : ∀ m : List (List ℝ), (∀ r ∈ m, ∀ x ∈ r, -1 < x) →
      logUntransformAll (logTransformAll m) = m := by
    intro m hm
    unfold logTransformAll logUntransformAll
    rw [List.map_map]
    conv_rhs => rw [← List.map_id m]
    refine List.map_congr_left fun r hr => ?_
    simp only [Function.comp, List.map_map]
    conv_rhs => rw [← List.map_id r]
    refine List.map_congr_left fun x hx => ?_
    have hpos : (0 : ℝ) < x + 1 := by have := hm r hr x hx; linarith
    simp [Real.exp_log hpos]
  refine ⟨hnorm, ?_, hlog, ?_⟩
  · intro means stds m hrow hms
    exact hnorm means (stdGuard stds) m (stdGuard_ne_zero stds) hrow
      (by rw [hms]; simp [stdGuard])
  · refine hlog [[0, 3]] ?_
    intro r hr x hx
    fin_cases hr
    fin_cases hx <;> norm_num

/-- Witness for C7 at concrete inputs. -/
theorem norm_log_roundtrip_witness :
    normUntransform [0] [2] (normTransform [0] [2] [[5]]) = [[5]] ∧
      normUntransform [0] (stdGuard [2]) (normTransform [0] (stdGuard [2]) [[5]])
        = [[5]] ∧
      logUntransformAll (logTransformAll [[0, 3]]) = [[0, 3]] :=
  ⟨norm_log_roundtrip.1 [0] [2] [[5]] (by norm_num) (by simp) rfl,
    norm_log_roundtrip.2.1 [0] [2] [[5]] (by simp) rfl,
    norm_log_roundtrip.2.2.2⟩

/-! ## PowerTransformer (transformers.py lines 426-465)

`np.power` on float arrays is idealized as the real power `Real.rpow`.
`untransform` computes `orig_len = z.shape[1] / n_powers` (true division,
line 462) and slices `z[:, :orig_len]`; the slice bound is modelled with
truncating natural division, the semantics of the float index in the
numpy versions this code targets. -/

/-- `PowerTransformer.transform` on features: horizontally stack
`X ** p` for each power `p` (lines 440-443). -/
noncomputable def powerTransformX (powers : List ℝ) (m : List (List ℝ)) :
    List (List ℝ) :=
  m.map fun row => (powers.map fun p => row.map fun x => x ^ p).flatten

/-- `PowerTransformer.untransform` (lines 459-465): keep the first
`1 / len(powers)` fraction of the columns and raise them to
`1 / powers[0]`. -/
noncomputable def powerUntransform (powers : List ℝ) (z : List (List ℝ)) :
    List (List ℝ) :=
  z.map fun row =>
    (row.take (row.length / powers.length)).map fun x => x ^ (1 / powers.headD 1)

/-- C8 counterexample: for the single-power list `[2]` and `X = [[-1]]`,
the forward transform yields `[[1]]` (`(-1)^2 = 1`) and `untransform`
yields `[[1]] ≠ [[-1]]`, so `untransform(transform(D))` does NOT recover
the original array for every single-power list. -/
theorem power_untransform_negative_cex :
    powerUntransform [2] (powerTransformX [2] [[-1]]) ≠ [[-1]] := by
  have h1 : ((-1 : ℝ)) ^ ((2 : ℕ) : ℝ) = 1 := by
    rw [Real.rpow_natCast]; norm_num
  have h2 : ((2 : ℝ)) = ((2 : ℕ) : ℝ) := by norm_num
  have hval : powerUntransform [2] (powerTransformX [2] [[-1]]) = [[1]] := by
    unfold powerTransformX powerUntransform
    simp only [List.map_cons, List.map_nil, List.flatten, List.append_nil,
      List.length_cons, List.length_nil, List.length_singleton]
    rw [h2, h1]
    norm_num [Real.one_rpow]
  rw [hval]
  intro h
  have : (1 : ℝ) = -1 := by
    have := congrArg (fun l => (l.getD 0 []).getD 0 0) h
    simpa using this
  norm_num at this

/-- C8 (amended): for a single-power list `[p]` with `p ≠ 0`,
`untransform` keeps the full width (the first `1/1` fraction of columns)
and raises the entries to `1/p`, which exactly inverts the forward
transform on arrays whose entries are all nonnegative. -/
theorem power_untransform_single_power (p : ℝ) (hp : p ≠ 0)
    (m : List (List ℝ)) (hnn : ∀ r ∈ m, ∀ x ∈ r, 0 ≤ x) :
    powerUntransform [p] (powerTransformX [p] m) = m := by
  unfold powerTransformX powerUntransform
  rw [List.map_map]
  conv_rhs => rw [← List.map_id m]
  refine List.map_congr_left fun r hr => ?_
  simp only [Function.comp, id_eq, List.map_cons, List.map_nil, List.flatten,
    List.append_nil, List.length_singleton, List.length_map, Nat.div_one,
    List.headD_cons]
  have htake : List.take r.length (List.map (fun x => x ^ p) r)
      = List.map (fun x => x ^ p) r := by
    simpa using List.take_length (List.map (fun x => x ^ p) r)
  rw [htake, List.map_map]
  conv_rhs => rw [← List.map_id r]
  refine List.map_congr_left fun x hx => ?_
  have hx0 : 0 ≤ x := hnn r hr x hx
  simp only [Function.comp, id_eq, one_div]
  exact Real.rpow_rpow_inv hx0 hp

/-- Witness for the amended C8 at a concrete input. -/
theorem power_untransform_single_power_witness :
    powerUntransform [2] (powerTransformX [2] [[0, 3]]) = [[0, 3]] :=
  power_untransform_single_power 2 (by norm_num) [[0, 3]] (by
    intro r hr x hx
    fin_cases hr
    fin_cases hx <;> norm_num)

/-! ## Disk state: `shuffle_shards`, `set_shard`, `get_shard`
(diskdataset.py lines 472-477, 515-519, 479-501)

A dataset directory is a metadata row list plus a map from file names to
stored array contents (content type `α`; the metadata file itself, which
`save_to_disk` rewrites, is held separately in `rows`).  File names follow
`write_data_to_disk` (lines 90-112): `"<basename>-X.joblib"` etc. -/

/-- One row of `metadata_df`: basename plus the four file references
recorded at write time. -/
structure MetaRow where
  basename : String
  XRef : Option String
  yRef : Option String
  wRef : Option String
  idsRef : Option String
deriving DecidableEq

def xName (b : String) : String := b ++ "-X.joblib"

def yName (b : String) : String := b ++ "-y.joblib"

def wName (b : String) : String := b ++ "-w.joblib"

def idsName (b : String) : String := b ++ "-ids.joblib"

/-- The on-disk state of one `DiskDataset`. -/
structure DiskState (α : Type) where
  rows : List MetaRow
  files : String → Option α

def fupdate {α : Type} (f : String → Option α) (k : String) (v : α) :
    String → Option α :=
  fun s => if s = k then some v else f s

/-- `DiskDataset.write_data_to_disk` (lines 82-115): persist each present
array under its derived name; the returned metadata row records a null
reference for each absent array. -/
def write_data_to_disk {α : Type} (files : String → Option α) (b : String)
    (X y w ids : Option α) : (String → Option α) × MetaRow :=
  let f1 := match X with | some v => fupdate files (xName b) v | none => files
  let f2 := match y with | some v => fupdate f1 (yName b) v | none => f1
  let f3 := match w with | some v => fupdate f2 (wName b) v | none => f2
  let f4 := match ids with | some v => fupdate f3 (idsName b) v | none => f3
  (f4, ⟨b, X.map fun _ => xName b, y.map fun _ => yName b,
    w.map fun _ => wName b, ids.map fun _ => idsName b⟩)

/-- `DiskDataset.shuffle_shards` (lines 472-477): replace the metadata row
list by a permutation of itself and re-persist the metadata; no data file
is touched.  The random permutation is a parameter. -/
def shuffle_shards {α : Type} (st : DiskState α) (rows2 : List MetaRow) :
    DiskState α :=
  ⟨rows2, st.files⟩

/-- `DiskDataset.set_shard(shard_num, ...)` (lines 515-519): writes the
shard's files under the basename `"shard-<shard_num>"` derived from the
POSITION argument — the basename recorded in metadata row `shard_num` is
never consulted — and does not modify the metadata. -/
def set_shard {α : Type} (st : DiskState α) (i : ℕ) (X y w ids : Option α) :
    DiskState α :=
  ⟨st.rows, (write_data_to_disk st.files ("shard-" ++ toString i) X y w ids).1⟩

def readRef {α : Type} (files : String → Option α) : Option String → Option α
  | none => none
  | some r => files r

/-- `DiskDataset.get_shard(i)` (lines 479-501): reads through the file
references recorded in metadata row `i` (`self.metadata_df.iloc[i]`).
(The all-ones weight recovery for a present-but-missing weights file is
modelled separately by `loadW`; it needs no file write, so the frame
results below are unaffected.) -/
def get_shard {α : Type} (st : DiskState α) (i : ℕ) :
    Option α × Option α × Option α × Option α :=
  let row := st.rows.getD i ⟨"", none, none, none, none⟩
  (readRef st.files row.XRef, readRef st.files row.yRef,
    readRef st.files row.wRef, readRef st.files row.idsRef)

/-- Reading a shard's files directly by basename, as `write_data_to_disk`
names them. -/
def readByBasename {α : Type} (st : DiskState α) (b : String) :
    Option α × Option α × Option α × Option α :=
  (st.files (xName b), st.files (yName b), st.files (wName b),
    st.files (idsName b))

/-- C9: `shuffle_shards` permutes only the metadata row order (and
re-persists the index); every data file is untouched, so reading any shard
by its original basename before and after returns identical content. -/
theorem shuffle_shards_frame {α : Type} (st : DiskState α)
    (rows2 : List MetaRow) (hperm : rows2.Perm st.rows) :
    (shuffle_shards st rows2).files = st.files ∧
      (∀ name, (shuffle_shards st rows2).files name = st.files name) ∧
      (∀ b, readByBasename (shuffle_shards st rows2) b = readByBasename st b) ∧
      (shuffle_shards st rows2).rows.Perm st.rows :=
  ⟨rfl, fun _ => rfl, fun _ => rfl, hperm⟩

/-- Witness for C9: a concrete 4-shard dataset, shuffled by a concrete
permutation; shard 0's files read by their original basename are
unchanged. -/
theorem shuffle_shards_frame_witness :
    (shuffle_shards
        (⟨[⟨"shard-0", some (xName "shard-0"), none, none, some (idsName "shard-0")⟩,
           ⟨"shard-1", some (xName "shard-1"), none, none, some (idsName "shard-1")⟩,
           ⟨"shard-2", some (xName "shard-2"), none, none, some (idsName "shard-2")⟩,
           ⟨"shard-3", some (xName "shard-3"), none, none, some (idsName "shard-3")⟩],
          fun s => if s = xName "shard-0" then some 10 else none⟩ : DiskState ℕ)
        [⟨"shard-3", some (xName "shard-3"), none, none, some (idsName "shard-3")⟩,
         ⟨"shard-1", some (xName "shard-1"), none, none, some (idsName "shard-1")⟩,
         ⟨"shard-0", some (xName "shard-0"), none, none, some (idsName "shard-0")⟩,
         ⟨"shard-2", some (xName "shard-2"), none, none, some (idsName "shard-2")⟩]).files
      = (fun s => if s = xName "shard-0" then some 10 else none) ∧
    readByBasename
        (shuffle_shards
          (⟨[⟨"shard-0", some (xName "shard-0"), none, none, some (idsName "shard-0")⟩,
             ⟨"shard-1", some (xName "shard-1"), none, none, some (idsName "shard-1")⟩,
             ⟨"shard-2", some (xName "shard-2"), none, none, some (idsName "shard-2")⟩,
             ⟨"shard-3", some (xName "shard-3"), none, none, some (idsName "shard-3")⟩],
            fun s => if s = xName "shard-0" then some 10 else none⟩ : DiskState ℕ)
          [⟨"shard-3", some (xName "shard-3"), none, none, some (idsName "shard-3")⟩,
           ⟨"shard-1", some (xName "shard-1"), none, none, some (idsName "shard-1")⟩,
           ⟨"shard-0", some (xName "shard-0"), none, none, some (idsName "shard-0")⟩,
           ⟨"shard-2", some (xName "shard-2"), none, none, some (idsName "shard-2")⟩])
        "shard-0"
      = readByBasename
        (⟨[⟨"shard-0", some (xName "shard-0"), none, none, some (idsName "shard-0")⟩,
           ⟨"shard-1", some (xName "shard-1"), none, none, some (idsName "shard-1")⟩,
           ⟨"shard-2", some (xName "shard-2"), none, none, some (idsName "shard-2")⟩,
           ⟨"shard-3", some (xName "shard-3"), none, none, some (idsName "shard-3")⟩],
          fun s => if s = xName "shard-0" then some 10 else none⟩ : DiskState ℕ)
        "shard-0" := by
  have h := shuffle_shards_frame
    (⟨[⟨"shard-0", some (xName "shard-0"), none, none, some (idsName "shard-0")⟩,
       ⟨"shard-1", some (xName "shard-1"), none, none, some (idsName "shard-1")⟩,
       ⟨"shard-2", some (xName "shard-2"), none, none, some (idsName "shard-2")⟩,
       ⟨"shard-3", some (xName "shard-3"), none, none, some (idsName "shard-3")⟩],
      fun s => if s = xName "shard-0" then some 10 else none⟩ : DiskState ℕ)
    [⟨"shard-3", some (xName "shard-3"), none, none, some (idsName "shard-3")⟩,
     ⟨"shard-1", some (xName "shard-1"), none, none, some (idsName "shard-1")⟩,
     ⟨"shard-0", some (xName "shard-0"), none, none, some (idsName "shard-0")⟩,
     ⟨"shard-2", some (xName "shard-2"), none, none, some (idsName "shard-2")⟩]
    (by decide)
  exact ⟨h.1, h.2.2.1 "shard-0"⟩

/-- A concrete two-shard dataset built through `write_data_to_disk`:
shard files `shard-0-*` hold 10/11/12/13 and `shard-1-*` hold
20/21/22/23, with the metadata rows recorded in write order. -/
def demoState : DiskState ℕ :=
  let w0 := write_data_to_disk (fun _ => none) "shard-0"
    (some 10) (some 11) (some 12) (some 13)
  let w1 := write_data_to_disk w0.1 "shard-1"
    (some 20) (some 21) (some 22) (some 23)
  ⟨[w0.2, w1.2], w1.1⟩

/-- `demoState` after `shuffle_shards` drew the swapping permutation of
its two metadata rows. -/
def demoShuffled : DiskState ℕ :=
  shuffle_shards demoState
    [demoState.rows.getD 1 ⟨"", none, none, none, none⟩,
      demoState.rows.getD 0 ⟨"", none, none, none, none⟩]

/-- C10: `set_shard(shard_num, ...)` always writes under the basename
`"shard-<shard_num>"` derived from the position argument, ignoring the
basename recorded in metadata row `shard_num`.  After `shuffle_shards`
has swapped the two metadata rows, metadata row 0 carries basename
`"shard-1"`, so `set_shard 0` leaves everything `get_shard 0` reads
untouched and instead overwrites the files that `get_shard 1` reads —
breaking the read-modify-write correspondence `sparse_shuffle` relies on
(lines 446-451 pair `get_shard(i)` with `set_shard(i, ...)`). -/
theorem set_shard_basename_mismatch :
    (demoShuffled.rows.getD 0 ⟨"", none, none, none, none⟩).basename = "shard-1" ∧
      get_shard (set_shard demoShuffled 0
          (some 100) (some 101) (some 102) (some 103)) 0
        = get_shard demoShuffled 0 ∧
      get_shard demoShuffled 1 = (some 10, some 11, some 12, some 13) ∧
      get_shard (set_shard demoShuffled 0
          (some 100) (some 101) (some 102) (some 103)) 1
        = (some 100, some 101, some 102, some 103) ∧
      get_shard (set_shard demoShuffled 0
          (some 100) (some 101) (some 102) (some 103)) 1
        ≠ get_shard demoShuffled 1 := by
  decide

end AGCN
